import Mathlib

/-!
Shallow embedding of the `indisposed` utility library.

The embedding models, as pure state machines:
- `unpackArray` (src/functions/fn.ts): the value-shape normalizer;
- `toDisposable` (src/functions/disposable.ts): the sync exactly-once
  disposal primitive, with the user cleanup and the chained prior hook
  modelled as deterministic `Except` outcomes (a JS callback may throw);
- `toAsyncDisposable` (src/functions/disposable.ts): the async variant,
  whose memoized promise is modelled by its eventual settlement;
- `once` (src/functions/handlers.ts): the wait-once bridge, with the
  promise state, the one-shot listener registration and the disposal flag;
- `on` (src/functions/handlers.ts): the buffered async sequence bridge,
  with the event buffer, the FIFO waiter queue, a log of waiter
  resolutions, the `done` flag and the listener subscription.
-/

namespace Indisposed

variable {α β ε : Type}

/-- Result shape of `unpackArray`: `undefined`, the sole element, or the
original argument list (src/functions/fn.ts, type `UnpackArray`). -/
inductive Unpacked (α : Type) where
  | undef : Unpacked α
  | single : α → Unpacked α
  | list : List α → Unpacked α

/-- `unpackArray` (src/functions/fn.ts): `values.length === 0 ? undefined
: values.length === 1 ? values[0] : values`. -/
def unpackArray (values : List α) : Unpacked α :=
  if values.length = 0 then .undef
  else if h : values.length = 1 then .single (values.get ⟨0, by omega⟩)
  else .list values

/-- The rejection value used by the `once` handler when `rejects` is true:
`args.length === 1 ? args[0] : args` (src/functions/handlers.ts). -/
inductive RejectVal (α : Type) where
  | single : α → RejectVal α
  | list : List α → RejectVal α

/-- The reject argument of `reject(args.length === 1 ? args[0] : args)`
in the `once` handler (src/functions/handlers.ts). -/
def rejectValue (args : List α) : RejectVal α :=
  if h : args.length = 1 then .single (args.get ⟨0, by omega⟩)
  else .list args

/-- Observable state of one `toDisposable` handle: the `disposed` flag and
invocation counters for `disposeFn` and the chained original
`Symbol.dispose` hook (src/functions/disposable.ts). -/
structure SyncDisposeState where
  disposed : Bool
  cleanupCount : Nat
  originalCount : Nat

/-- State of a freshly created `toDisposable` handle: `disposed = false`,
no cleanup invocation yet. -/
def syncInit : SyncDisposeState := ⟨false, 0, 0⟩

/-- One call of the `Symbol.dispose` closure installed by `toDisposable`
(src/functions/disposable.ts). `co` is the outcome of `disposeFn(value)`
and `oo` the outcome of the chained original hook; `hasOrig` records
whether the value carried an original `Symbol.dispose` hook. A thrown
exception is returned as `some e`; the `disposed` flag is set only after
both steps complete, exactly as in the source. -/
def disposeSyncStep (co oo : Except ε Unit) (hasOrig : Bool)
    (s : SyncDisposeState) : SyncDisposeState × Option ε :=
  if s.disposed then (s, none)
  else
    match co with
    | .error e => ({ s with cleanupCount := s.cleanupCount + 1 }, some e)
    | .ok _ =>
      if hasOrig then
        match oo with
        | .error e =>
          ({ s with
              cleanupCount := s.cleanupCount + 1
              originalCount := s.originalCount + 1 }, some e)
        | .ok _ =>
          ({ s with
              cleanupCount := s.cleanupCount + 1
              originalCount := s.originalCount + 1
              disposed := true }, none)
      else
        ({ s with cleanupCount := s.cleanupCount + 1, disposed := true }, none)

/-- `n` successive calls of the sync dispose closure on the same handle
(the caller catches any thrown error and calls again). -/
def runDisposeSync (co oo : Except ε Unit) (hasOrig : Bool) :
    Nat → SyncDisposeState → SyncDisposeState
  | 0, s => s
  | n + 1, s => runDisposeSync co oo hasOrig n (disposeSyncStep co oo hasOrig s).1

/-- Observable state of one `toAsyncDisposable` handle: the memoized
`disposingPromise` (modelled by its eventual settlement, since the
assignment happens synchronously before any suspension point) and the
number of times the cleanup body has been started
(src/functions/disposable.ts). -/
structure AsyncDisposeState (ε : Type) where
  memo : Option (Except ε Unit)
  count : Nat

/-- State of a freshly created `toAsyncDisposable` handle: no in-flight
disposal, cleanup never started. -/
def asyncInit : AsyncDisposeState ε := ⟨none, 0⟩

/-- One call of the `Symbol.asyncDispose` closure installed by
`toAsyncDisposable`: if `disposingPromise == null` it starts the cleanup
body (settlement `r`, covering `disposeFn` and the chained hook) and
memoizes it; every call returns (awaits) the memoized settlement. -/
def disposeAsyncStep (r : Except ε Unit) (s : AsyncDisposeState ε) :
    Except ε Unit × AsyncDisposeState ε :=
  match s.memo with
  | none => (r, ⟨some r, s.count + 1⟩)
  | some o => (o, s)

/-- `n` calls of the async dispose closure on the same handle, collecting
the settlement each caller observes. Because the memo assignment is
synchronous, this also models calls issued before the first cleanup
completes. -/
def runDisposeAsync (r : Except ε Unit) :
    Nat → AsyncDisposeState ε → List (Except ε Unit) × AsyncDisposeState ε
  | 0, s => ([], s)
  | n + 1, s =>
    let p := disposeAsyncStep r s
    let q := runDisposeAsync r n p.2
    (p.1 :: q.1, q.2)

/-- Observable state of the wait-once bridge `once`
(src/functions/handlers.ts): the promise (`none` while pending, otherwise
its settlement), whether the one-shot listener is still registered on the
emitter, and the `toDisposable` flag of the returned handle. -/
structure OnceState (β : Type) where
  promise : Option (Except (RejectVal β) (Unpacked β)) := none
  listenerActive : Bool
  disposed : Bool

/-- State right after `once(emitter, event, rejects)` returns: pending
promise, listener registered via `emitter.once`, not disposed. -/
def onceInit : OnceState β := ⟨none, true, false⟩

/-- Promise settlement: `resolve`/`reject` settle a pending promise and
are no-ops on an already settled one. -/
def settlePromise (x : Except (RejectVal β) (Unpacked β))
    (p : Option (Except (RejectVal β) (Unpacked β))) :
    Option (Except (RejectVal β) (Unpacked β)) :=
  match p with
  | none => some x
  | some y => some y

/-- The emitter fires the subscribed event with `args`. If the one-shot
listener is still registered it is removed (semantics of `emitter.once`)
and the `handler` of `once` runs: it rejects with
`args.length === 1 ? args[0] : args` when `rejects` is true, otherwise
resolves with `unpackArray(args)`. If the listener was already removed,
nothing observable happens. -/
def onceFire (rejects : Bool) (args : List β) (s : OnceState β) : OnceState β :=
  if s.listenerActive then
    { s with
      listenerActive := false
      promise := settlePromise
        (if rejects then .error (rejectValue args) else .ok (unpackArray args))
        s.promise }
  else s

/-- Disposal of the handle returned by `once`: `toDisposable(promise,
() => emitter.off(event, handler))` — on the first call removes the
listener, afterwards a no-op. The promise is never settled here. -/
def onceDispose (s : OnceState β) : OnceState β :=
  if s.disposed then s
  else { s with listenerActive := false, disposed := true }

/-- The result of one pull of the async iterator built by `on`:
`{value, done:false}` or the terminal `{value: undefined, done:true}`. -/
inductive IterResult (α : Type) where
  | value : α → IterResult α
  | finished : IterResult α

/-- Observable state of the sequence bridge `on`
(src/functions/handlers.ts): the `done` flag, the `events` buffer, the
FIFO queue of suspended pulls (identified by issue order), the log of
waiter resolutions in the order they were resolved, whether the listener
is subscribed, and the id for the next suspended pull. -/
structure OnState (α : Type) where
  done : Bool
  events : List α
  waiters : List Nat
  resolved : List (Nat × IterResult α)
  subscribed : Bool
  nextWaiter : Nat

/-- State right after `on(emitter, event, maxBuffer)` returns: open,
empty buffer, no suspended pulls, listener subscribed via `emitter.on`. -/
def onInit : OnState α := ⟨false, [], [], [], true, 0⟩

/-- The loop body of `drain`: pair off buffered values and suspended
pulls, FIFO against FIFO, until one side is exhausted; each resolution is
appended to the log. -/
def drainAux : List α → List Nat → List (Nat × IterResult α) →
    List α × List Nat × List (Nat × IterResult α)
  | v :: es, w :: ws, rs => drainAux es ws (rs ++ [(w, .value v)])
  | es, ws, rs => (es, ws, rs)

/-- `drain` (src/functions/handlers.ts): while not `done` and both queues
are non-empty, shift the oldest value and the oldest waiter and resolve
the waiter with the value. -/
def drain (s : OnState α) : OnState α :=
  if s.done then s
  else
    match drainAux s.events s.waiters s.resolved with
    | (es, ws, rs) => { s with events := es, waiters := ws, resolved := rs }

/-- The `handler` closure of `on`, applied to the already normalized
value `v`: if `done`, return; with `maxBuffer <= 0` push `v` only when a
waiter is suspended; with `maxBuffer > 0` push and evict the oldest entry
when the buffer exceeds `maxBuffer`; then `drain`. -/
def onHandler (maxBuffer : Int) (v : α) (s : OnState α) : OnState α :=
  if s.done then s
  else
    drain
      (if maxBuffer ≤ 0 then
        if s.waiters.length ≠ 0 then { s with events := s.events ++ [v] } else s
      else
        let es := s.events ++ [v]
        { s with events := if (es.length : Int) > maxBuffer then es.tail else es })

/-- The emitter fires the subscribed event with `args`: the `handler` of
`on` runs on `unpackArray(args)`. -/
def onFire (maxBuffer : Int) (args : List β) (s : OnState (Unpacked β)) :
    OnState (Unpacked β) :=
  onHandler maxBuffer (unpackArray args) s

/-- What a call of `iterator.next` returns: an already settled result, or
a suspended promise identified by the waiter id it enqueued. -/
inductive NextOutcome (α : Type) where
  | immediate : IterResult α → NextOutcome α
  | suspended : Nat → NextOutcome α

/-- `iterator.next` (src/functions/handlers.ts): if `done`, the terminal
result; else if the buffer is non-empty, shift and return its oldest
value; else enqueue a waiter and run `drain`. -/
def iterNext (s : OnState α) : NextOutcome α × OnState α :=
  if s.done then (.immediate .finished, s)
  else
    match s.events with
    | v :: es => (.immediate (.value v), { s with events := es })
    | [] =>
      (.suspended s.nextWaiter,
        drain { s with
                waiters := s.waiters ++ [s.nextWaiter]
                nextWaiter := s.nextWaiter + 1 })

/-- `dispose` (src/functions/handlers.ts): if already `done`, a no-op;
otherwise unsubscribe the listener, set `done`, and resolve every
suspended pull with the terminal result in FIFO order. -/
def onDispose (s : OnState α) : OnState α :=
  if s.done then s
  else
    { s with
      subscribed := false
      done := true
      waiters := []
      resolved := s.resolved ++ s.waiters.map (fun w => (w, IterResult.finished)) }

/-! ### Helper lemmas -/

theorem drainAux_eq (es : List α) : ∀ (ws : List Nat)
    (rs : List (Nat × IterResult α)),
    drainAux es ws rs =
      (es.drop ws.length, ws.drop es.length,
        rs ++ (ws.zip es).map (fun p => (p.1, IterResult.value p.2))) := by
  induction es with
  | nil => intro ws rs; cases ws <;> simp [drainAux]
  | cons v es ih =>
    intro ws rs
    cases ws with
    | nil => simp [drainAux]
    | cons w ws => simp [drainAux, ih]

theorem drain_eq (s : OnState α) (h : s.done = false) :
    drain s = { s with
      events := s.events.drop s.waiters.length
      waiters := s.waiters.drop s.events.length
      resolved := s.resolved ++
        (s.waiters.zip s.events).map (fun p => (p.1, IterResult.value p.2)) } := by
  simp [drain, h, drainAux_eq]

theorem onHandler_pos (mb : Int) (hmb : ¬ mb ≤ 0) (v : α) (s : OnState α)
    (hd : s.done = false) :
    onHandler mb v s = drain { s with
      events := if ((s.events ++ [v]).length : Int) > mb
        then (s.events ++ [v]).tail else s.events ++ [v] } := by
  simp [onHandler, hd, hmb]

theorem onHandler_nonpos (mb : Int) (hmb : mb ≤ 0) (v : α) (s : OnState α)
    (hd : s.done = false) :
    onHandler mb v s =
      drain (if s.waiters.length ≠ 0
        then { s with events := s.events ++ [v] } else s) := by
  simp [onHandler, hd, hmb]

theorem runDisposeSync_of_disposed (co oo : Except ε Unit) (hasOrig : Bool)
    (n : Nat) (s : SyncDisposeState) (h : s.disposed = true) :
    runDisposeSync co oo hasOrig n s = s := by
  induction n with
  | zero => rfl
  | succ n ih => simp [runDisposeSync, disposeSyncStep, h, ih]

theorem runDisposeAsync_of_memo (r : Except ε Unit) (n : Nat)
    (s : AsyncDisposeState ε) (h : s.memo = some r) :
    runDisposeAsync r n s = (List.replicate n r, s) := by
  induction n with
  | zero => rfl
  | succ n ih =>
    simp [runDisposeAsync, disposeAsyncStep, h, ih, List.replicate_succ]

/-! ### Claims -/

/-- C9: `unpackArray` is pure and yields `undefined` for an empty argument
list, the sole element for a one-element list, and the list itself (in its
original order) for a list of length at least two. -/
theorem unpackArray_shape :
    unpackArray ([] : List β) = .undef
    ∧ (∀ x : β, unpackArray [x] = .single x)
    ∧ (∀ vs : List β, 2 ≤ vs.length → unpackArray vs = .list vs) := by
  refine ⟨rfl, fun x => rfl, fun vs h => ?_⟩
  have h0 : ¬ vs.length = 0 := by omega
  have h1 : ¬ vs.length = 1 := by omega
  simp [unpackArray, h0, h1]

/-- C9 witness: `unpackArray` evaluated on concrete argument lists of
length 0, 1 and 2. -/
theorem unpackArray_shape_witness :
    unpackArray ([] : List Nat) = .undef
    ∧ unpackArray [5] = Unpacked.single 5
    ∧ (2 ≤ ([1, 2] : List Nat).length
        ∧ unpackArray [1, 2] = Unpacked.list [1, 2]) :=
  ⟨(unpackArray_shape).1, (unpackArray_shape).2.1 5,
    by decide, (unpackArray_shape).2.2 [1, 2] (by decide)⟩

/-- C1 counterexample: the claim quantifies over every cleanup function,
but `toDisposable` sets its `disposed` flag only after `disposeFn(value)`
returns; with a cleanup that throws, two dispose calls invoke the cleanup
twice, not once, and the second call is not a no-op. -/
theorem toDisposable_throwing_cleanup_counterexample :
    (runDisposeSync (ε := Unit) (.error ()) (.ok ()) false 2 syncInit).cleanupCount = 2
    ∧ ¬ (runDisposeSync (ε := Unit) (.error ()) (.ok ()) false 2 syncInit).cleanupCount = 1 := by
  constructor <;> decide

/-- C1 (amended): for every value and every cleanup that completes without
throwing (as does any chained prior dispose hook), after wrapping with
`toDisposable`, invoking dispose `n ≥ 1` times invokes the cleanup exactly
once, and every call on an already disposed handle is a no-op. -/
theorem toDisposable_cleanup_once {ε : Type} (oo : Except ε Unit)
    (hasOrig : Bool) (hoo : hasOrig = true → oo = .ok ())
    (n : Nat) (hn : 1 ≤ n) :
    (runDisposeSync (.ok ()) oo hasOrig n syncInit).cleanupCount = 1
    ∧ (runDisposeSync (.ok ()) oo hasOrig n syncInit).disposed = true
    ∧ ∀ s : SyncDisposeState, s.disposed = true →
        disposeSyncStep (.ok ()) oo hasOrig s = (s, none) := by
  obtain ⟨m, rfl⟩ : ∃ m, n = m + 1 := ⟨n - 1, by omega⟩
  have hstep : (disposeSyncStep (ε := ε) (.ok ()) oo hasOrig syncInit).1
      = ⟨true, 1, if hasOrig then 1 else 0⟩ := by
    cases hO : hasOrig with
    | true => rw [hoo hO]; simp [disposeSyncStep, syncInit]
    | false => simp [disposeSyncStep, syncInit]
  have hrun : runDisposeSync (.ok ()) oo hasOrig (m + 1) syncInit
      = ⟨true, 1, if hasOrig then 1 else 0⟩ := by
    rw [runDisposeSync, hstep, runDisposeSync_of_disposed _ _ _ _ _ rfl]
  refine ⟨by rw [hrun], by rw [hrun], fun s hs => ?_⟩
  simp [disposeSyncStep, hs]

/-- C1 witness: with a cleanup (and no prior hook) that completes
normally, three dispose calls invoke the cleanup exactly once. -/
theorem toDisposable_cleanup_once_witness :
    (false = true → (Except.ok () : Except Unit Unit) = .ok ()) ∧ 1 ≤ 3
    ∧ (runDisposeSync (ε := Unit) (.ok ()) (.ok ()) false 3 syncInit).cleanupCount = 1 :=
  ⟨fun h => by simp at h, by decide,
    (toDisposable_cleanup_once (.ok ()) false (fun h => by simp at h) 3 (by decide)).1⟩

/-- C2: for every `n ≥ 1` calls of the async dispose operation installed
by `toAsyncDisposable` on one handle — including calls issued before the
first cleanup settles, since the memo is assigned synchronously — the
cleanup body runs exactly once and all `n` callers observe the same
settlement `r`, whether `r` is a success or a rejection. -/
theorem toAsyncDisposable_exactly_once {ε : Type} (r : Except ε Unit)
    (n : Nat) (hn : 1 ≤ n) :
    (runDisposeAsync r n (asyncInit : AsyncDisposeState ε)).2.count = 1
    ∧ (runDisposeAsync r n (asyncInit : AsyncDisposeState ε)).1
        = List.replicate n r := by
  obtain ⟨m, rfl⟩ : ∃ m, n = m + 1 := ⟨n - 1, by omega⟩
  have h1 : disposeAsyncStep r (asyncInit : AsyncDisposeState ε)
      = (r, ⟨some r, 1⟩) := rfl
  have h2 := runDisposeAsync_of_memo (ε := ε) r m ⟨some r, 1⟩ rfl
  simp [runDisposeAsync, h1, h2, List.replicate_succ]

/-- C2 witness: two calls on one handle whose cleanup rejects — the
cleanup runs once and both callers observe that same rejection. -/
theorem toAsyncDisposable_exactly_once_witness :
    1 ≤ 2
    ∧ (runDisposeAsync (ε := Unit) (.error ()) 2 asyncInit).2.count = 1
    ∧ (runDisposeAsync (ε := Unit) (.error ()) 2 asyncInit).1
        = List.replicate 2 (.error ()) :=
  ⟨by decide, (toAsyncDisposable_exactly_once (.error ()) 2 (by decide)).1,
    (toAsyncDisposable_exactly_once (.error ()) 2 (by decide)).2⟩

/-- C3: for every argument list `args`, when `once` is created with
`rejects = true` and the subscribed event fires with `args`, the returned
promise is rejected with the sole element when `args` has length 1, and
with the list itself otherwise. -/
theorem once_rejects_on_fire {β : Type} :
    (∀ args : List β,
      (onceFire true args (onceInit : OnceState β)).promise
        = some (.error (rejectValue args)))
    ∧ (∀ a : β, rejectValue [a] = RejectVal.single a)
    ∧ (∀ args : List β, ¬ args.length = 1 → rejectValue args = .list args) := by
  refine ⟨fun args => rfl, fun a => rfl, fun args h => ?_⟩
  simp [rejectValue, h]

/-- C3 witness: a two-argument firing rejects the promise with the whole
argument list. -/
theorem once_rejects_on_fire_witness :
    (onceFire true [7, 8] (onceInit : OnceState Nat)).promise
      = some (.error (rejectValue [7, 8]))
    ∧ ¬ ([7, 8] : List Nat).length = 1
    ∧ rejectValue ([7, 8] : List Nat) = RejectVal.list [7, 8] :=
  ⟨(once_rejects_on_fire (β := Nat)).1 [7, 8], by decide,
    (once_rejects_on_fire (β := Nat)).2.2 [7, 8] (by decide)⟩

/-- C8: firing the event subscribed by `once` settles the promise with the
normalized arguments; disposing before the event fires leaves the promise
pending forever (a subsequent firing is a no-op, and any firing on a
removed listener changes nothing observable). -/
theorem once_settle_and_dispose {β : Type} :
    (∀ args : List β,
      (onceFire false args (onceInit : OnceState β)).promise
        = some (.ok (unpackArray args)))
    ∧ (onceDispose (onceInit : OnceState β)).promise = none
    ∧ (∀ (r : Bool) (args : List β),
        onceFire r args (onceDispose (onceInit : OnceState β))
          = onceDispose (onceInit : OnceState β))
    ∧ (∀ (r : Bool) (args : List β) (s : OnceState β),
        s.listenerActive = false → onceFire r args s = s) := by
  refine ⟨fun args => rfl, rfl, fun r args => rfl, fun r args s h => ?_⟩
  simp [onceFire, h]

/-- C8 witness: firing on a state whose listener has been removed is the
identity. -/
theorem once_settle_and_dispose_witness :
    (⟨none, false, false⟩ : OnceState Nat).listenerActive = false
    ∧ onceFire false [3] (⟨none, false, false⟩ : OnceState Nat)
      = ⟨none, false, false⟩ :=
  ⟨rfl, (once_settle_and_dispose (β := Nat)).2.2.2 false [3] _ rfl⟩

/-- C4: with the default capacity (100), firing E1, E2, E3 before any
pull and then pulling three times yields E1, E2, E3 in that order; in
general the pairing loop `drainAux` satisfies suspended pulls strictly
FIFO-to-FIFO — the i-th oldest buffered value resolves the i-th oldest
waiter. -/
theorem on_delivers_in_fire_order {β : Type} (e1 e2 e3 : β) :
    (iterNext (onFire 100 [e3] (onFire 100 [e2] (onFire 100 [e1]
        (onInit : OnState (Unpacked β)))))).1
      = .immediate (.value (.single e1))
    ∧ (iterNext (iterNext (onFire 100 [e3] (onFire 100 [e2] (onFire 100 [e1]
        (onInit : OnState (Unpacked β)))))).2).1
      = .immediate (.value (.single e2))
    ∧ (iterNext (iterNext (iterNext (onFire 100 [e3] (onFire 100 [e2]
        (onFire 100 [e1] (onInit : OnState (Unpacked β)))))).2).2).1
      = .immediate (.value (.single e3))
    ∧ (∀ (es : List (Unpacked β)) (ws : List Nat)
        (rs : List (Nat × IterResult (Unpacked β))),
        drainAux es ws rs =
          (es.drop ws.length, ws.drop es.length,
            rs ++ (ws.zip es).map (fun p => (p.1, IterResult.value p.2)))) := by
  have hs3 : onFire 100 [e3] (onFire 100 [e2] (onFire 100 [e1]
      (onInit : OnState (Unpacked β))))
      = ⟨false, [.single e1, .single e2, .single e3], [], [], true, 0⟩ := by
    norm_num [onFire, onHandler, unpackArray, drain, drainAux, onInit]
  refine ⟨?_, ?_, ?_, fun es ws rs => drainAux_eq es ws rs⟩ <;>
    simp [hs3, iterNext]

/-- C5: with `maxBuffer > 0` the buffer length never exceeds `maxBuffer`
after a firing (given it did not before), a pull never grows the buffer,
disposal leaves the buffer unchanged, a firing on a full buffer with no
suspended pull evicts the oldest entry, and concretely with
`maxBuffer = 2`, firing E1, E2, E3, E4 with no consumer and then pulling
yields E3 first. -/
theorem on_buffer_bounded_drop_oldest {α β : Type} (mb : Int) (hmb : 0 < mb) :
    (∀ (v : α) (s : OnState α), (s.events.length : Int) ≤ mb →
        ((onHandler mb v s).events.length : Int) ≤ mb)
    ∧ (∀ s : OnState α, (iterNext s).2.events.length ≤ s.events.length)
    ∧ (∀ s : OnState α, (onDispose s).events = s.events)
    ∧ (∀ (v : α) (s : OnState α), s.done = false → s.waiters = [] →
        (s.events.length : Int) = mb →
        (onHandler mb v s).events = s.events.tail ++ [v])
    ∧ (∀ e1 e2 e3 e4 : β,
        (onFire 2 [e4] (onFire 2 [e3] (onFire 2 [e2] (onFire 2 [e1]
            (onInit : OnState (Unpacked β)))))).events
          = [Unpacked.single e3, Unpacked.single e4]
        ∧ (iterNext (onFire 2 [e4] (onFire 2 [e3] (onFire 2 [e2] (onFire 2 [e1]
            (onInit : OnState (Unpacked β))))))).1
          = .immediate (.value (Unpacked.single e3))) := by
  have hmb' : ¬ mb ≤ 0 := by omega
  refine ⟨fun v s hs => ?_, fun s => ?_, fun s => ?_,
    fun v s hd hw hlen => ?_, fun e1 e2 e3 e4 => ?_⟩
  · by_cases hd : s.done = true
    · simpa [onHandler, hd] using hs
    · have hd' : s.done = false := by simpa using hd
      rw [onHandler_pos mb hmb' v s hd']
      by_cases hgt : ((s.events ++ [v]).length : Int) > mb
      · rw [if_pos hgt, drain_eq _ (by simpa using hd')]
        simp only [List.length_drop, List.length_tail, List.length_append,
          List.length_singleton]
        omega
      · rw [if_neg hgt, drain_eq _ (by simpa using hd')]
        simp only [List.length_append, List.length_singleton] at hgt
        simp only [List.length_drop, List.length_append, List.length_singleton]
        omega
  · by_cases hd : s.done = true
    · simp [iterNext, hd]
    · have hd' : s.done = false := by simpa using hd
      rcases hev : s.events with _ | ⟨a, es⟩
      · simp [iterNext, hd', hev, drain_eq]
      · simp [iterNext, hd', hev]
  · by_cases hd : s.done = true <;> simp [onDispose, hd]
  · have hgt : ((s.events ++ [v]).length : Int) > mb := by
      simp only [List.length_append, List.length_singleton]
      push_cast
      omega
    rw [onHandler_pos mb hmb' v s hd, if_pos hgt, drain_eq _ (by simpa using hd)]
    simp only [hw, List.length_nil, List.drop_zero]
    rcases hne : s.events with _ | ⟨a, as⟩
    · rw [hne] at hlen
      simp at hlen
      omega
    · simp
  · have f1 : onFire 2 [e1] (onInit : OnState (Unpacked β))
        = ⟨false, [.single e1], [], [], true, 0⟩ := by
      norm_num [onFire, onHandler, unpackArray, drain, drainAux, onInit]
    have f2 : onFire 2 [e2]
          (⟨false, [.single e1], [], [], true, 0⟩ : OnState (Unpacked β))
        = ⟨false, [.single e1, .single e2], [], [], true, 0⟩ := by
      norm_num [onFire, onHandler, unpackArray, drain, drainAux]
    have f3 : onFire 2 [e3]
          (⟨false, [.single e1, .single e2], [], [], true, 0⟩ : OnState (Unpacked β))
        = ⟨false, [.single e2, .single e3], [], [], true, 0⟩ := by
      norm_num [onFire, onHandler, unpackArray, drain, drainAux]
    have f4 : onFire 2 [e4]
          (⟨false, [.single e2, .single e3], [], [], true, 0⟩ : OnState (Unpacked β))
        = ⟨false, [.single e3, .single e4], [], [], true, 0⟩ := by
      norm_num [onFire, onHandler, unpackArray, drain, drainAux]
    rw [f1, f2, f3, f4]
    exact ⟨rfl, by simp [iterNext]⟩

/-- C5 witness: `maxBuffer = 2`, firing 1, 2, 3, 4 with no consumer
leaves exactly the two newest values, oldest first. -/
theorem on_buffer_bounded_drop_oldest_witness :
    (0 : Int) < 2
    ∧ (onFire 2 [(4 : Nat)] (onFire 2 [3] (onFire 2 [2] (onFire 2 [1]
        (onInit : OnState (Unpacked Nat)))))).events
      = [Unpacked.single 3, Unpacked.single 4] :=
  ⟨by norm_num,
    ((on_buffer_bounded_drop_oldest (α := Unpacked Nat) (β := Nat) 2
      (by norm_num)).2.2.2.2 1 2 3 4).1⟩

/-- C6: with `maxBuffer ≤ 0`, a firing while no pull is suspended changes
nothing observable (the value is discarded), and a firing while at least
one pull is suspended delivers the value to the oldest suspended pull. -/
theorem on_zero_buffer_policy {α : Type} (mb : Int) (hmb : mb ≤ 0) (v : α)
    (s : OnState α) (hd : s.done = false) (hev : s.events = []) :
    (s.waiters = [] → onHandler mb v s = s)
    ∧ (∀ w ws, s.waiters = w :: ws →
        onHandler mb v s = { s with
          waiters := ws
          resolved := s.resolved ++ [(w, IterResult.value v)] }) := by
  obtain ⟨d, es, wtr, rs, sb, nw⟩ := s
  simp only at hd hev
  subst hd hev
  constructor
  · intro hw
    simp only at hw
    subst hw
    simp [onHandler, hmb, drain, drainAux]
  · intro w ws hwc
    simp only at hwc
    subst hwc
    simp [onHandler, hmb, drain, drainAux]

/-- C6 witness: `maxBuffer = 0` with one suspended pull — the fired value
resolves that pull and nothing stays buffered. -/
theorem on_zero_buffer_policy_witness :
    (0 : Int) ≤ 0
    ∧ onHandler 0 (5 : Nat) ⟨false, [], [6], [], true, 7⟩
      = ⟨false, [], [], [(6, IterResult.value 5)], true, 7⟩ := by
  refine ⟨by norm_num, ?_⟩
  have h := (on_zero_buffer_policy 0 (by norm_num) (5 : Nat)
      ⟨false, [], [6], [], true, 7⟩ rfl rfl).2 6 [] rfl
  simpa using h

/-- C7: disposing the sequence bridge resolves every still-suspended pull
with the terminal result in FIFO order and unsubscribes the listener, a
subsequent pull immediately yields the terminal result, and a second
dispose call changes nothing. -/
theorem on_dispose_terminal_fifo {α : Type} (s : OnState α)
    (h : s.done = false) :
    onDispose s = { s with
      subscribed := false
      done := true
      waiters := []
      resolved := s.resolved ++ s.waiters.map (fun w => (w, IterResult.finished)) }
    ∧ iterNext (onDispose s) = (.immediate .finished, onDispose s)
    ∧ onDispose (onDispose s) = onDispose s := by
  have h1 : onDispose s = { s with
      subscribed := false
      done := true
      waiters := []
      resolved := s.resolved ++ s.waiters.map (fun w => (w, IterResult.finished)) } := by
    simp [onDispose, h]
  have h2 : (onDispose s).done = true := by rw [h1]
  refine ⟨h1, by simp [iterNext, h2], ?_⟩
  rw [h1]
  simp [onDispose]

/-- C7 witness: disposing with two suspended pulls resolves both with the
terminal result, oldest first. -/
theorem on_dispose_terminal_fifo_witness :
    (⟨false, [9], [0, 1], [], true, 2⟩ : OnState Nat).done = false
    ∧ onDispose (⟨false, [9], [0, 1], [], true, 2⟩ : OnState Nat)
      = ⟨true, [9], [], [(0, IterResult.finished), (1, IterResult.finished)],
          false, 2⟩ := by
  refine ⟨rfl, ?_⟩
  have h := (on_dispose_terminal_fifo
      (⟨false, [9], [0, 1], [], true, 2⟩ : OnState Nat) rfl).1
  simpa using h

/-- C10: disposal does not empty the internal buffer, yet no buffered
value can ever be pulled afterwards: the disposed state has `done` set,
every pull on a `done` state immediately returns the terminal result and
leaves the state unchanged, and both the listener handler and dispose are
no-ops on a `done` state. -/
theorem on_dispose_discards_buffered {α : Type} (s : OnState α)
    (h : s.done = false) :
    (onDispose s).events = s.events
    ∧ (onDispose s).done = true
    ∧ (∀ t : OnState α, t.done = true → iterNext t = (.immediate .finished, t))
    ∧ (∀ (mb : Int) (v : α) (t : OnState α), t.done = true → onHandler mb v t = t)
    ∧ (∀ t : OnState α, t.done = true → onDispose t = t) :=
  ⟨by simp [onDispose, h], by simp [onDispose, h],
    fun t ht => by simp [iterNext, ht],
    fun mb v t ht => by simp [onHandler, ht],
    fun t ht => by simp [onDispose, ht]⟩

/-- C10 witness: disposing with a value still buffered keeps it in the
buffer, but the next pull returns the terminal result. -/
theorem on_dispose_discards_buffered_witness :
    (⟨false, [9], [], [], true, 0⟩ : OnState Nat).done = false
    ∧ (onDispose (⟨false, [9], [], [], true, 0⟩ : OnState Nat)).events = [9] :=
  ⟨rfl, (on_dispose_discards_buffered
      (⟨false, [9], [], [], true, 0⟩ : OnState Nat) rfl).1⟩

end Indisposed
